import Mathlib

/-!
Verification of the pixel-prompt backend (job orchestration subsystem)
against its natural-language specification.

The Python sources under `src/backend/src/` are shallowly embedded below:
pure functions become Lean functions, dictionary access that can raise
`KeyError` is modelled in the `Except` monad, and calls that leave the
process (S3, provider APIs, LLM) are abstracted as oracle parameters of
the corresponding `Except` type.  Components of the repository that are
not present under `src/` (in particular `jobs/manager.py`) are modelled
from the specification text and marked as such in their doc comments.
-/

namespace PixelPrompt

/-! ## JSON values and API Gateway responses (`lambda_function.py`, `response`) -/

/-- A JSON-like value, the shape of the bodies passed to `response` in
`lambda_function.py`.  Strings, numbers, booleans, arrays and objects
suffice for every body the backend builds. -/
inductive JValue where
  | s (v : String)
  | n (v : Nat)
  | b (v : Bool)
  | arr (v : List JValue)
  | obj (v : List (String × JValue))

/-- An API Gateway response as built by `response(status_code, body)` in
`lambda_function.py`: a status code, the fixed CORS headers, and the body. -/
structure Response where
  statusCode : Nat
  headers : List (String × String)
  body : JValue

/-- The fixed header block that `response` attaches to every reply. -/
def corsHeaders : List (String × String) :=
  [("Content-Type", "application/json"),
   ("Access-Control-Allow-Origin", "*"),
   ("Access-Control-Allow-Methods", "GET, POST, OPTIONS"),
   ("Access-Control-Allow-Headers", "Content-Type, Authorization, X-Requested-With")]

/-- Embedding of `response(status_code, body)` from `lambda_function.py`. -/
def response (statusCode : Nat) (body : JValue) : Response :=
  { statusCode := statusCode, headers := corsHeaders, body := body }

/-! ## `handle_generate` (`lambda_function.py`)

The rate limiter and content filter live in `utils/rate_limit.py` and
`utils/content_filter.py`, which are not part of the core sources; the
spec treats them as boolean gates, so they enter the embedding as the
boolean results `rateBlocked` and `contentBlocked` the gates would
return.  Side effects are made observable in a `GenEffects` record so
that claims about "no side effect before rejection" are statable. -/

/-- Which externally visible side effects `handle_generate` performed:
whether the rate limiter was consulted, whether the content filter was
consulted, whether `job_manager.create_job` ran, and whether the
background executor thread was started. -/
structure GenEffects where
  rateChecked : Bool
  contentChecked : Bool
  jobCreated : Bool
  executorStarted : Bool
  deriving DecidableEq, Repr

/-- No side effect has happened. -/
def GenEffects.none : GenEffects :=
  { rateChecked := false, contentChecked := false,
    jobCreated := false, executorStarted := false }

/-- Embedding of `handle_generate` from `lambda_function.py`, after the request body has
been parsed: validation of the prompt, the rate gate, the content gate, job
creation, and the background launch, in source order.  `rateBlocked` and
`contentBlocked` are the answers the two gates would give; `jobId` is the
identifier `create_job` would return and `totalModels` the registry's model
count.  The returned `GenEffects` records which of the effectful steps were
reached. -/
def handle_generate (prompt : String) (rateBlocked contentBlocked : Bool)
    (jobId : String) (totalModels : Nat) : Response × GenEffects :=
  if prompt = "" then
    (response 400 (.obj [("error", .s "Prompt is required")]), GenEffects.none)
  else if 1000 < prompt.length then
    (response 400 (.obj [("error", .s "Prompt too long (max 1000 characters)")]),
     GenEffects.none)
  else if rateBlocked then
    (response 429 (.obj [("error", .s "Rate limit exceeded"),
        ("message", .s "Too many requests. Please try again later.")]),
     { GenEffects.none with rateChecked := true })
  else if contentBlocked then
    (response 400 (.obj [("error", .s "Inappropriate content detected"),
        ("message", .s "Your prompt contains inappropriate content and cannot be processed.")]),
     { GenEffects.none with rateChecked := true, contentChecked := true })
  else
    (response 200 (.obj [("jobId", .s jobId),
        ("message", .s "Job created successfully"),
        ("totalModels", .n totalModels)]),
     { rateChecked := true, contentChecked := true,
       jobCreated := true, executorStarted := true })

/-! ## Provider handlers (`models/handlers.py`)

Each handler is a Python function `handler(model_config, prompt, params)`
wrapped in `try/except`.  A Python dict of strings is embedded as an
association list, and subscript access `d['k']`, which raises `KeyError`
when the key is absent, is embedded in the `Except PyExn` monad.  The
network interaction inside the `try` block (SDK client call plus image
download) is abstracted as an oracle `api : Except PyExn String` whose
`ok` value is the base64 image the pipeline would produce and whose
`error` value is the exception it would raise. -/

/-- A Python exception as relevant to the backend: `KeyError` from a dict
subscript, `requests.Timeout` from the image download, or any other
exception carrying its message. -/
inductive PyExn where
  | keyError (key : String)
  | timeout
  | other (msg : String)
  deriving DecidableEq, Repr

/-- A Python dict with string keys and string values. -/
def Dict : Type := List (String × String)

/-- Subscript access `d['k']`: the value when present, `KeyError` otherwise. -/
def dictGet (d : Dict) (k : String) : Except PyExn String :=
  match List.lookup k d with
  | some v => Except.ok v
  | none => Except.error (PyExn.keyError k)

/-- Embedding of `str(e)` for the exceptions of this model, as interpolated into the
handlers' error dicts (the exact rendering of a `KeyError` is abstracted;
no property proved below depends on it). -/
def PyExn.str : PyExn → String
  | PyExn.keyError k => "KeyError: " ++ k
  | PyExn.timeout => "download timeout"
  | PyExn.other msg => msg

/-- The success dict every handler returns:
`{'status': 'success', 'image': ..., 'model': ..., 'provider': ...}`. -/
def successDict (image model provider : String) : Dict :=
  [("status", "success"), ("image", image), ("model", model), ("provider", provider)]

/-- The error dict every handler returns from its `except` block:
`{'status': 'error', 'error': ..., 'model': ..., 'provider': ...}`.
Building it evaluates `model_config['name']`, so it is itself fallible. -/
def errorDict (cfg : Dict) (errMsg provider : String) : Except PyExn Dict := do
  let name ← dictGet cfg "name"
  pure [("status", "error"), ("error", errMsg), ("model", name), ("provider", provider)]

/-- The uniform shape of an embedded handler: configuration dict, prompt,
params dict, and the network oracle, to a result dict or an uncaught
exception. -/
def Handler : Type := Dict → String → Dict → Except PyExn String → Except PyExn Dict

/-- Embedding of `handle_openai` from `models/handlers.py`.  The `try` body reads
`model_config['key']`, runs the DALL-E call and image download (the
oracle), and builds the success dict from `model_config['name']`; a
`requests.Timeout` is reported with the fixed download-timeout message,
any other exception with its `str`; both `except` blocks build their
error dict via `model_config['name']`. -/
def handle_openai : Handler := fun cfg _prompt _params api =>
  let attempt : Except PyExn Dict := do
    let _key ← dictGet cfg "key"
    let image ← api
    let name ← dictGet cfg "name"
    pure (successDict image name "openai")
  match attempt with
  | Except.ok d => Except.ok d
  | Except.error PyExn.timeout =>
      errorDict cfg "Image download timeout after 30 seconds" "openai"
  | Except.error e => errorDict cfg (PyExn.str e) "openai"

/-- Embedding of `handle_google_gemini` from `models/handlers.py`: the `try` body prints
`model_config['name']` and returns a placeholder success dict; the `except`
block builds its error dict via `model_config['name']`. -/
def handle_google_gemini : Handler := fun cfg _prompt _params _api =>
  let attempt : Except PyExn Dict := do
    let name ← dictGet cfg "name"
    pure (successDict "base64-placeholder-image-data" name "google_gemini")
  match attempt with
  | Except.ok d => Except.ok d
  | Except.error e => errorDict cfg (PyExn.str e) "google_gemini"

/-- Embedding of `handle_google_imagen` from `models/handlers.py` (same shape as the
Gemini handler). -/
def handle_google_imagen : Handler := fun cfg _prompt _params _api =>
  let attempt : Except PyExn Dict := do
    let name ← dictGet cfg "name"
    pure (successDict "base64-placeholder-image-data" name "google_imagen")
  match attempt with
  | Except.ok d => Except.ok d
  | Except.error e => errorDict cfg (PyExn.str e) "google_imagen"

/-- Embedding of `handle_bedrock_nova` from `models/handlers.py`: the `try` body invokes
Bedrock (the oracle; request building from `params.get` cannot raise) and
builds the success dict from `model_config['name']`. -/
def handle_bedrock_nova : Handler := fun cfg _prompt _params api =>
  let attempt : Except PyExn Dict := do
    let image ← api
    let name ← dictGet cfg "name"
    pure (successDict image name "bedrock_nova")
  match attempt with
  | Except.ok d => Except.ok d
  | Except.error e => errorDict cfg (PyExn.str e) "bedrock_nova"

/-- Embedding of `handle_bedrock_sd` from `models/handlers.py` (same shape as the Nova
handler). -/
def handle_bedrock_sd : Handler := fun cfg _prompt _params api =>
  let attempt : Except PyExn Dict := do
    let image ← api
    let name ← dictGet cfg "name"
    pure (successDict image name "bedrock_sd")
  match attempt with
  | Except.ok d => Except.ok d
  | Except.error e => errorDict cfg (PyExn.str e) "bedrock_sd"

/-- Embedding of `handle_stability` from `models/handlers.py` (placeholder handler, same
shape as the Gemini handler). -/
def handle_stability : Handler := fun cfg _prompt _params _api =>
  let attempt : Except PyExn Dict := do
    let name ← dictGet cfg "name"
    pure (successDict "base64-placeholder-image-data" name "stability")
  match attempt with
  | Except.ok d => Except.ok d
  | Except.error e => errorDict cfg (PyExn.str e) "stability"

/-- Embedding of `handle_bfl` from `models/handlers.py` (placeholder handler). -/
def handle_bfl : Handler := fun cfg _prompt _params _api =>
  let attempt : Except PyExn Dict := do
    let name ← dictGet cfg "name"
    pure (successDict "base64-placeholder-image-data" name "bfl")
  match attempt with
  | Except.ok d => Except.ok d
  | Except.error e => errorDict cfg (PyExn.str e) "bfl"

/-- Embedding of `handle_recraft` from `models/handlers.py` (placeholder handler). -/
def handle_recraft : Handler := fun cfg _prompt _params _api =>
  let attempt : Except PyExn Dict := do
    let name ← dictGet cfg "name"
    pure (successDict "base64-placeholder-image-data" name "recraft")
  match attempt with
  | Except.ok d => Except.ok d
  | Except.error e => errorDict cfg (PyExn.str e) "recraft"

/-- Embedding of `handle_generic` from `models/handlers.py` (fallback handler). -/
def handle_generic : Handler := fun cfg _prompt _params _api =>
  let attempt : Except PyExn Dict := do
    let name ← dictGet cfg "name"
    pure (successDict "base64-placeholder-image-data" name "generic")
  match attempt with
  | Except.ok d => Except.ok d
  | Except.error e => errorDict cfg (PyExn.str e) "generic"

/-- The `handlers` dict literal inside `get_handler`. -/
def handlersTable : List (String × Handler) :=
  [("openai", handle_openai),
   ("google_gemini", handle_google_gemini),
   ("google_imagen", handle_google_imagen),
   ("bedrock_nova", handle_bedrock_nova),
   ("bedrock_sd", handle_bedrock_sd),
   ("stability", handle_stability),
   ("bfl", handle_bfl),
   ("recraft", handle_recraft),
   ("generic", handle_generic)]

/-- Embedding of `get_handler(provider)` from `models/handlers.py`:
`handlers.get(provider, handle_generic)`. -/
def get_handler (provider : String) : Handler :=
  match List.lookup provider handlersTable with
  | some h => h
  | none => handle_generic

/-! ## Job manager (modelled from the spec)

`jobs/manager.py` is not part of the sources under `src/`; only its
callers (`lambda_function.py`) are.  The data model and the status
derivation are therefore modelled from the specification text
(sections 3 and 4.1). -/

/-- One Model Result object, as listed by the job manager and enriched by
`handle_status`: model name, provider, terminal status string, the S3 key
of the stored image when one exists, the CloudFront URL once
`handle_status` adds it, and the write timestamp used for duplicate
resolution. -/
structure ModelResult where
  model : String
  provider : String
  status : String
  imageKey : Option String
  imageUrl : Option String
  writtenAt : Nat
  deriving DecidableEq, Repr

/-- A Job Manifest as the spec defines it: the job identifier and the
ordered set of expected `(modelName, provider)` pairs, fixed at creation. -/
structure Manifest where
  jobId : String
  expectedModels : List (String × String)
  deriving DecidableEq, Repr

/-- The Aggregate Job Status the manager derives on every read. -/
structure JobStatus where
  jobId : String
  totalModels : Nat
  completedModels : Nat
  overallStatus : String
  results : List ModelResult
  deriving DecidableEq, Repr

/-- A Model Result is terminal when its worker reached a terminal outcome,
successful or failed. -/
def isTerminal (r : ModelResult) : Bool :=
  r.status = "completed" || r.status = "error"

/-- Modelled from the spec: the aggregate-status derivation of
`JobManager.get_job_status` (in `jobs/manager.py`, which is absent from
`src/`).  Per spec section 3: `totalModels` is the size of
`expectedModels`, `completedModels` counts the expected models having at
least one terminal Model Result, and `overallStatus` is `"completed"`
exactly when `completedModels == totalModels`, else `"pending"`. -/
def aggregateStatus (m : Manifest) (rs : List ModelResult) : JobStatus :=
  let total := m.expectedModels.length
  let completed :=
    (m.expectedModels.filter
      (fun em => rs.any (fun r => r.model = em.1 && isTerminal r))).length
  { jobId := m.jobId
    totalModels := total
    completedModels := completed
    overallStatus := if completed = total then "completed" else "pending"
    results := rs }

/-- Modelled from the spec: `JobManager.get_job_status(jobId)` reads the
manifest keyed by `jobId` and fails with not-found (here `none`, the
falsy value `handle_status` tests) when no manifest exists; otherwise it
lists the job's Model Results and derives the aggregate status. -/
def get_job_status (manifests : List (String × Manifest))
    (resultsOf : String → List ModelResult) (jobId : String) : Option JobStatus :=
  match List.lookup jobId manifests with
  | none => none
  | some m => some (aggregateStatus m (resultsOf jobId))

/-! ## `handle_status` (`lambda_function.py`) and CloudFront URLs -/

/-- Embedding of `ImageStorage.get_cloudfront_url` from `utils/storage.py`. -/
def get_cloudfront_url (cloudfront_domain s3_key : String) : String :=
  "https://" ++ cloudfront_domain ++ "/" ++ s3_key

/-- The enrichment loop of `handle_status`: for each result with
`status == 'completed'` and a truthy `imageKey` (present and non-empty),
set `imageUrl` to the CloudFront URL of that key; other results pass
through unchanged. -/
def enrichResult (cloudfront_domain : String) (r : ModelResult) : ModelResult :=
  match r.imageKey with
  | some k =>
      if r.status = "completed" ∧ k ≠ "" then
        { r with imageUrl := some (get_cloudfront_url cloudfront_domain k) }
      else r
  | none => r

/-- Embedding of `handle_status` from `lambda_function.py`, after the `jobId` path
parameter has been extracted: query the job manager; on `none` answer 404
with the error message and the echoed `jobId`; otherwise add CloudFront
URLs to the completed results and answer 200. -/
def handle_status (manifests : List (String × Manifest))
    (resultsOf : String → List ModelResult) (cloudfront_domain : String)
    (jobId : String) : Response :=
  match get_job_status manifests resultsOf jobId with
  | none =>
      response 404 (.obj [("error", .s "Job not found"), ("jobId", .s jobId)])
  | some st =>
      let enriched := { st with results := st.results.map (enrichResult cloudfront_domain) }
      response 200 (.obj
        [("jobId", .s enriched.jobId),
         ("totalModels", .n enriched.totalModels),
         ("completedModels", .n enriched.completedModels),
         ("overallStatus", .s enriched.overallStatus),
         ("results", .arr (enriched.results.map (fun r => .obj
           [("model", .s r.model),
            ("provider", .s r.provider),
            ("status", .s r.status),
            ("imageKey", match r.imageKey with | some k => .s k | none => .b false),
            ("imageUrl", match r.imageUrl with | some u => .s u | none => .b false)])))])

/-! ## `lambda_handler` routing (`lambda_function.py`)

Each route handler catches its own exceptions, but `lambda_handler`
wraps the dispatch in a final `try/except`; the outcome of the
dispatched handler is therefore a `Except PyExn Response`. -/

/-- The routing block of `lambda_handler`: choose the handler outcome by
path and method, or the 404 fallthrough. -/
def routeRequest (path method : String)
    (genOutcome statusOutcome enhanceOutcome : Except PyExn Response) :
    Except PyExn Response :=
  if path = "/generate" ∧ method = "POST" then genOutcome
  else if path.startsWith "/status/" ∧ method = "GET" then statusOutcome
  else if path = "/enhance" ∧ method = "POST" then enhanceOutcome
  else Except.ok (response 404 (.obj [("error", .s "Not found"),
    ("path", .s path), ("method", .s method)]))

/-- Embedding of `lambda_handler` from `lambda_function.py`: route the request, and on
any exception escaping the routed handler answer the fixed generic 500
response. -/
def lambda_handler (path method : String)
    (genOutcome statusOutcome enhanceOutcome : Except PyExn Response) : Response :=
  match routeRequest path method genOutcome statusOutcome enhanceOutcome with
  | Except.ok r => r
  | Except.error _ => response 500 (.obj [("error", .s "Internal server error")])

/-! ## Prompt enhancement (`api/enhance.py`)

`PromptEnhancer.enhance` reads the configured prompt model from the
registry (absent registry modelled as `Option Dict`), and inside its
`try` block reads `name`, `key` and `provider` from that dict, calls the
chat-completions API (the oracle `llm`), and strips the returned
content.  Every exception is caught and answered with the original
prompt. -/

/-- Whitespace as stripped by Python string trimming (the common ASCII
whitespace characters; the full Unicode set only differs on characters
that never matter to the properties proved below). -/
def isPyWhitespace (c : Char) : Bool :=
  c = ' ' || c = '\t' || c = '\n' || c = '\r'

/-- Embedding of `str.strip()` with no argument: drop whitespace from
both ends. -/
def pyStrip (s : String) : String :=
  String.mk (((s.data.dropWhile isPyWhitespace).reverse.dropWhile isPyWhitespace).reverse)

/-- The `try` block of `PromptEnhancer.enhance`: read `name`, `key` and
`provider` from the prompt-model dict (each subscript may raise
`KeyError`), pick the model identifier, run the chat-completions call
(the oracle `llm`), and strip the returned content. -/
def enhanceAttempt (pm : Dict) (llm : Except PyExn String) : Except PyExn String := do
  let name ← dictGet pm "name"
  let _key ← dictGet pm "key"
  let provider ← dictGet pm "provider"
  let _modelId :=
    if provider = "openai" then "gpt-4o-mini"
    else if provider = "google_gemini" then "gemini-2.0-flash-exp"
    else name
  let content ← llm
  pure (pyStrip content)

/-- Embedding of `PromptEnhancer.enhance`: `None` for an empty prompt, the original
prompt when no prompt model is configured, the stripped LLM answer on
success, and the original prompt when anything in the `try` block
raises. -/
def enhance (promptModel : Option Dict) (llm : Except PyExn String)
    (prompt : String) : Option String :=
  if prompt = "" then none
  else
    match promptModel with
    | none => some prompt
    | some pm =>
        match enhanceAttempt pm llm with
        | Except.ok enhanced => some enhanced
        | Except.error _ => some prompt

/-- Embedding of `PromptEnhancer.enhance_safe`: `enhance(prompt)` coerced to a string,
`enhanced if enhanced else prompt` under Python truthiness (both `None`
and the empty string fall back to the original prompt). -/
def enhance_safe (promptModel : Option Dict) (llm : Except PyExn String)
    (prompt : String) : String :=
  match enhance promptModel llm prompt with
  | some e => if e = "" then prompt else e
  | none => prompt

/-! ## Image storage (`utils/storage.py`)

`ImageStorage._normalize_model_name` is a chain of pure string
transformations; it is embedded on `List Char`.  `save_image` builds an
S3 key from the target, the normalized model name, and
`datetime.now(timezone.utc).strftime('%Y%m%d%H%M%S')`; wall-clock time is
embedded with microsecond precision so that the second-granularity of the
formatted timestamp is observable. -/

/-- Embedding of `str.lower()` on the characters that survive the later filter: ASCII
upper-case letters map to lower case, everything else is unchanged (the
full Unicode case map only differs on characters the `[^a-z0-9-]` filter
removes anyway). -/
def lowerChar (c : Char) : Char :=
  if 65 ≤ c.toNat ∧ c.toNat ≤ 90 then Char.ofNat (c.toNat + 32) else c

/-- The character class kept by `re.sub(r'[^a-z0-9\-]', '', ...)`:
lower-case ASCII letters, ASCII digits, and the hyphen. -/
def isAllowedChar (c : Char) : Bool :=
  (97 ≤ c.toNat && c.toNat ≤ 122) || (48 ≤ c.toNat && c.toNat ≤ 57) || c.toNat = 45

/-- Embedding of `re.sub(r'-+', '-', ...)`: collapse every run of hyphens to one. -/
def collapseHyphens : List Char → List Char
  | [] => []
  | [c] => [c]
  | a :: b :: rest =>
      if a = '-' ∧ b = '-' then collapseHyphens (b :: rest)
      else a :: collapseHyphens (b :: rest)

/-- Embedding of `.strip('-')`: drop hyphens from both ends. -/
def stripHyphens (l : List Char) : List Char :=
  ((l.dropWhile (fun c => c = '-')).reverse.dropWhile (fun c => c = '-')).reverse

/-- Embedding of `ImageStorage._normalize_model_name` on character lists: lower-case,
spaces to hyphens, drop disallowed characters, collapse hyphen runs, strip
boundary hyphens — in source order. -/
def normalizeChars (s : List Char) : List Char :=
  stripHyphens (collapseHyphens
    (((s.map lowerChar).map (fun c => if c = ' ' then '-' else c)).filter
      (fun c => isAllowedChar c)))

/-- Embedding of `ImageStorage._normalize_model_name` from `utils/storage.py`. -/
def normalize_model_name (s : String) : String :=
  String.mk (normalizeChars s.data)

/-- A UTC wall-clock instant as `datetime.now(timezone.utc)` observes it,
down to microseconds. -/
structure UtcTime where
  year : Nat
  month : Nat
  day : Nat
  hour : Nat
  minute : Nat
  second : Nat
  micro : Nat
  deriving DecidableEq, Repr

/-- Zero-pad a field to two digits, as `%m`, `%d`, `%H`, `%M`, `%S` do. -/
def pad2 (n : Nat) : String :=
  if n < 10 then "0" ++ toString n else toString n

/-- Zero-pad the year to four digits, as `%Y` does. -/
def pad4 (n : Nat) : String :=
  if n < 10 then "000" ++ toString n
  else if n < 100 then "00" ++ toString n
  else if n < 1000 then "0" ++ toString n
  else toString n

/-- Embedding of `strftime('%Y%m%d%H%M%S')`: the second-granularity rendering of the
instant; the microsecond component is not rendered. -/
def strftimeCompact (t : UtcTime) : String :=
  pad4 t.year ++ pad2 t.month ++ pad2 t.day ++ pad2 t.hour ++ pad2 t.minute ++ pad2 t.second

/-- No two consecutive hyphens anywhere in the list. -/
def noDoubleHyphen (l : List Char) : Prop :=
  List.Chain' (fun a b => ¬(a = '-' ∧ b = '-')) l

/-- Modelled from the spec: well-formedness of a Model Result as the job
manager (in `jobs/manager.py`, absent from `src/`) hands it to
`handle_status` — the image payload key is present (truthy) exactly when
the outcome is completed, and no CloudFront URL has been attached yet. -/
def resultWellFormed (r : ModelResult) : Prop :=
  (r.status = "completed" ↔ r.imageKey.getD "" ≠ "") ∧ r.imageUrl = none

/-- The S3 key computed by `ImageStorage.save_image`:
`f"group-images/{target}/{normalized_model}-{timestamp}.json"` with
`normalized_model = _normalize_model_name(model_name)` and `timestamp`
the compact rendering of the write instant.  `save_image` then puts the
metadata object at exactly this key, so two calls overwrite each other's
raw object precisely when their keys coincide. -/
def save_image_key (model_name target : String) (now : UtcTime) : String :=
  "group-images/" ++ target ++ "/" ++ normalize_model_name model_name ++ "-"
    ++ strftimeCompact now ++ ".json"

/-! ## Theorems -/

/-- C5: a generate request whose prompt is empty or longer than 1000
characters is answered 400 before any side effect — the rate limiter and
the content filter are not consulted, no job is created, no executor is
started. -/
theorem C5_validation_rejects_before_any_side_effect
    (prompt : String) (rateBlocked contentBlocked : Bool)
    (jobId : String) (totalModels : Nat)
    (h : prompt = "" ∨ 1000 < prompt.length) :
    (handle_generate prompt rateBlocked contentBlocked jobId totalModels).1.statusCode = 400 ∧
    (handle_generate prompt rateBlocked contentBlocked jobId totalModels).2 = GenEffects.none := by
  rcases h with h | h
  · simp [handle_generate, h, response]
  · have hne : prompt ≠ "" := by
      intro he
      rw [he] at h
      simp at h
    simp [handle_generate, hne, h, response]

/-- Witness for C5 at the concrete empty prompt. -/
theorem C5_witness :
    (handle_generate "" true true "j" 2).1.statusCode = 400 ∧
    (handle_generate "" true true "j" 2).2 = GenEffects.none :=
  C5_validation_rejects_before_any_side_effect "" true true "j" 2 (Or.inl rfl)

/-- C4: a generate request that passes validation and is blocked by the
rate gate is answered 429, and one blocked by the content gate is
answered 400; in both cases `create_job` is never invoked and no
executor thread is started. -/
theorem C4_policy_rejection_creates_no_job
    (prompt : String) (rateBlocked contentBlocked : Bool)
    (jobId : String) (totalModels : Nat)
    (hne : prompt ≠ "") (hlen : prompt.length ≤ 1000) :
    (rateBlocked = true →
      (handle_generate prompt rateBlocked contentBlocked jobId totalModels).1.statusCode = 429 ∧
      (handle_generate prompt rateBlocked contentBlocked jobId totalModels).2.jobCreated = false ∧
      (handle_generate prompt rateBlocked contentBlocked jobId totalModels).2.executorStarted = false) ∧
    (rateBlocked = false → contentBlocked = true →
      (handle_generate prompt rateBlocked contentBlocked jobId totalModels).1.statusCode = 400 ∧
      (handle_generate prompt rateBlocked contentBlocked jobId totalModels).2.jobCreated = false ∧
      (handle_generate prompt rateBlocked contentBlocked jobId totalModels).2.executorStarted = false) := by
  have hnlt : ¬ 1000 < prompt.length := Nat.not_lt.mpr hlen
  cases rateBlocked
  · cases contentBlocked
    · constructor
      · intro h
        exact absurd h (by simp)
      · intro _ h
        exact absurd h (by simp)
    · constructor
      · exact fun h => nomatch h
      · intro _ _
        simp [handle_generate, hne, hnlt, GenEffects.none, response]
  · constructor
    · intro _
      simp [handle_generate, hne, hnlt, GenEffects.none, response]
    · exact fun h => nomatch h

/-- Witness for C4 at a concrete rate-blocked request. -/
theorem C4_witness :
    (handle_generate "a cat" true false "j" 2).1.statusCode = 429 ∧
    (handle_generate "a cat" true false "j" 2).2.jobCreated = false :=
  have h := C4_policy_rejection_creates_no_job "a cat" true false "j" 2
    (by decide) (by decide)
  ⟨(h.1 rfl).1, (h.1 rfl).2.1⟩

/-- C6: when no manifest exists for the queried `jobId`, `handle_status`
answers 404 with the error message and the `jobId` echoed. -/
theorem C6_unknown_job_answers_404
    (manifests : List (String × Manifest))
    (resultsOf : String → List ModelResult) (cloudfront_domain jobId : String)
    (h : List.lookup jobId manifests = none) :
    handle_status manifests resultsOf cloudfront_domain jobId =
      response 404 (.obj [("error", .s "Job not found"), ("jobId", .s jobId)]) := by
  simp [handle_status, get_job_status, h]

/-- Witness for C6 at a concrete empty manifest store. -/
theorem C6_witness :
    handle_status [] (fun _ => []) "cdn.example.org" "no-such-job" =
      response 404 (.obj [("error", .s "Job not found"),
        ("jobId", .s "no-such-job")]) :=
  C6_unknown_job_answers_404 [] (fun _ => []) "cdn.example.org" "no-such-job" rfl

/-- C7: whenever the routed handler lets an exception escape,
`lambda_handler` answers the fixed generic 500 response; two invocations
whose handlers raise different exceptions produce identical responses,
so no diagnostic detail reaches the caller. -/
theorem C7_uncaught_exceptions_answer_uniform_500
    (path method : String)
    (g1 s1 e1 g2 s2 e2 : Except PyExn Response) (x1 x2 : PyExn)
    (h1 : routeRequest path method g1 s1 e1 = Except.error x1)
    (h2 : routeRequest path method g2 s2 e2 = Except.error x2) :
    lambda_handler path method g1 s1 e1 = lambda_handler path method g2 s2 e2 ∧
    lambda_handler path method g1 s1 e1 =
      response 500 (.obj [("error", .s "Internal server error")]) := by
  unfold lambda_handler
  rw [h1, h2]
  exact ⟨rfl, rfl⟩

/-- Witness for C7: two different exceptions escaping the generate
handler yield the same fixed 500 response. -/
theorem C7_witness :
    lambda_handler "/generate" "POST" (Except.error (PyExn.other "stack trace A"))
        (Except.ok (response 200 (.obj []))) (Except.ok (response 200 (.obj []))) =
      lambda_handler "/generate" "POST" (Except.error PyExn.timeout)
        (Except.ok (response 200 (.obj []))) (Except.ok (response 200 (.obj []))) ∧
    lambda_handler "/generate" "POST" (Except.error (PyExn.other "stack trace A"))
        (Except.ok (response 200 (.obj []))) (Except.ok (response 200 (.obj []))) =
      response 500 (.obj [("error", .s "Internal server error")]) :=
  C7_uncaught_exceptions_answer_uniform_500 "/generate" "POST"
    (Except.error (PyExn.other "stack trace A"))
    (Except.ok (response 200 (.obj []))) (Except.ok (response 200 (.obj [])))
    (Except.error PyExn.timeout)
    (Except.ok (response 200 (.obj []))) (Except.ok (response 200 (.obj [])))
    (PyExn.other "stack trace A") PyExn.timeout (by simp [routeRequest]) (by simp [routeRequest])

/-- C3 (code bug): the handler `get_handler` returns for provider
`'openai'`, applied to a model config missing `'name'`, propagates a
`KeyError` to its caller instead of returning a structured result dict —
the `except` block itself evaluates `model_config['name']`. -/
theorem C3_missing_name_propagates_keyerror :
    (get_handler "openai") [] "a cat" [] (Except.ok "img") =
      Except.error (PyExn.keyError "name") := rfl

/-- C1: when every expected model of a job has at least one terminal Model
Result — completed or error alike — the derived aggregate status is
`"completed"` and `completedModels` equals `totalModels`. -/
theorem C1_all_terminal_gives_completed
    (m : Manifest) (rs : List ModelResult)
    (h : ∀ em ∈ m.expectedModels, ∃ r ∈ rs, r.model = em.1 ∧ isTerminal r = true) :
    (aggregateStatus m rs).overallStatus = "completed" ∧
    (aggregateStatus m rs).completedModels = (aggregateStatus m rs).totalModels := by
  have hfilter :
      m.expectedModels.filter
          (fun em => rs.any (fun r => r.model = em.1 && isTerminal r))
        = m.expectedModels := by
    apply List.filter_eq_self.mpr
    intro em hem
    rcases h em hem with ⟨r, hr, hmod, hterm⟩
    exact List.any_eq_true.mpr ⟨r, hr, by simp [hmod, hterm]⟩
  constructor
  · simp [aggregateStatus, hfilter]
  · simp [aggregateStatus, hfilter]

/-- Witness for C1: a two-model job where one model completed and the
other errored is reported as completed with `completedModels =
totalModels = 2`. -/
theorem C1_witness :
    (aggregateStatus ⟨"job-1", [("m1", "p1"), ("m2", "p2")]⟩
        [⟨"m1", "p1", "completed", some "k1", none, 5⟩,
         ⟨"m2", "p2", "error", none, none, 6⟩]).overallStatus = "completed" ∧
    (aggregateStatus ⟨"job-1", [("m1", "p1"), ("m2", "p2")]⟩
        [⟨"m1", "p1", "completed", some "k1", none, 5⟩,
         ⟨"m2", "p2", "error", none, none, 6⟩]).completedModels =
      (aggregateStatus ⟨"job-1", [("m1", "p1"), ("m2", "p2")]⟩
        [⟨"m1", "p1", "completed", some "k1", none, 5⟩,
         ⟨"m2", "p2", "error", none, none, 6⟩]).totalModels :=
  C1_all_terminal_gives_completed _ _ (by decide)

/-- With an erroring LLM oracle, every path of the enhancement `try`
block still ends in a caught exception. -/
theorem enhanceAttempt_of_llm_error (pm : Dict) (e : PyExn) :
    ∃ e2, enhanceAttempt pm (Except.error e) = Except.error e2 := by
  unfold enhanceAttempt dictGet
  cases List.lookup "name" pm <;> cases List.lookup "key" pm <;>
    cases List.lookup "provider" pm <;>
      simp [Bind.bind, Except.bind]

/-- With a prompt-model dict missing one of the three keys read in the
`try` block, the enhancement attempt ends in a caught exception whatever
the LLM oracle would do. -/
theorem enhanceAttempt_of_missing_key (pm : Dict) (llm : Except PyExn String)
    (hmiss : List.lookup "name" pm = none ∨ List.lookup "key" pm = none ∨
      List.lookup "provider" pm = none) :
    ∃ e2, enhanceAttempt pm llm = Except.error e2 := by
  unfold enhanceAttempt dictGet
  rcases hmiss with h1 | h2 | h3
  · simp [h1, Bind.bind, Except.bind]
  · cases hn : List.lookup "name" pm <;> simp [hn, h2, Bind.bind, Except.bind]
  · cases hn : List.lookup "name" pm <;> cases hk : List.lookup "key" pm <;>
      simp [hn, hk, h3, Bind.bind, Except.bind]

/-- C9 (counterexample): enhancement can succeed with an empty result —
the LLM answers whitespace-only content, `enhance` strips it and returns
the non-`None` empty string, i.e. enhancement succeeded — yet
`enhance_safe` returns the original prompt, not the enhanced one, because
Python truthiness treats the empty string like `None`. -/
theorem C9_counterexample :
    enhance (some [("name", "m"), ("key", "k"), ("provider", "openai")])
        (Except.ok "   ") "cat" = some "" ∧
    enhance_safe (some [("name", "m"), ("key", "k"), ("provider", "openai")])
        (Except.ok "   ") "cat" = "cat" ∧
    enhance_safe (some [("name", "m"), ("key", "k"), ("provider", "openai")])
        (Except.ok "   ") "cat" ≠ "" :=
  ⟨rfl, rfl, by decide⟩

/-- C9 (amended): for a non-empty prompt, `enhance_safe` always returns a
non-empty string and `enhance` never returns `None`; the original prompt
is returned when no prompt model is configured; and with a configured
model, a successful enhancement attempt with non-empty trimmed content
returns exactly that content, while a successful attempt with empty
trimmed content, an attempt failing for any caught reason — in
particular a missing `name`/`key`/`provider` entry in the prompt-model
config, or an erroring LLM call — returns the original prompt
unchanged. -/
theorem C9_enhance_safe_contract
    (promptModel : Option Dict) (llm : Except PyExn String) (prompt : String)
    (h : prompt ≠ "") :
    enhance_safe promptModel llm prompt ≠ "" ∧
    enhance promptModel llm prompt ≠ none ∧
    (promptModel = none → enhance_safe promptModel llm prompt = prompt) ∧
    (∀ pm, promptModel = some pm →
      (∀ v, enhanceAttempt pm llm = Except.ok v → v ≠ "" →
        enhance promptModel llm prompt = some v ∧
        enhance_safe promptModel llm prompt = v) ∧
      (enhanceAttempt pm llm = Except.ok "" →
        enhance_safe promptModel llm prompt = prompt) ∧
      (∀ e, enhanceAttempt pm llm = Except.error e →
        enhance_safe promptModel llm prompt = prompt) ∧
      ((List.lookup "name" pm = none ∨ List.lookup "key" pm = none ∨
        List.lookup "provider" pm = none) →
        enhance_safe promptModel llm prompt = prompt) ∧
      (∀ e, llm = Except.error e → enhance_safe promptModel llm prompt = prompt)) := by
  refine ⟨?_, ?_, ?_, ?_⟩
  · cases promptModel with
    | none => simp [enhance_safe, enhance, h]
    | some pm =>
        cases henh : enhanceAttempt pm llm with
        | ok v => by_cases hv : v = "" <;> simp [enhance_safe, enhance, h, henh, hv]
        | error e0 => simp [enhance_safe, enhance, h, henh]
  · cases promptModel with
    | none => simp [enhance, h]
    | some pm =>
        cases henh : enhanceAttempt pm llm with
        | ok v => simp [enhance, h, henh]
        | error e0 => simp [enhance, h, henh]
  · intro hn
    subst hn
    simp [enhance_safe, enhance, h]
  · rintro pm rfl
    refine ⟨?_, ?_, ?_, ?_, ?_⟩
    · intro v hv hvne
      constructor
      · simp [enhance, h, hv]
      · simp [enhance_safe, enhance, h, hv, hvne]
    · intro hv
      simp [enhance_safe, enhance, h, hv]
    · intro e he
      simp [enhance_safe, enhance, h, he]
    · intro hmiss
      rcases enhanceAttempt_of_missing_key pm llm hmiss with ⟨e2, he2⟩
      simp [enhance_safe, enhance, h, he2]
    · intro e he
      subst he
      rcases enhanceAttempt_of_llm_error pm e with ⟨e2, he2⟩
      simp [enhance_safe, enhance, h, he2]

/-- Witness for the amended C9: a concrete successful enhancement returns
the trimmed LLM content, and with no configured model the original prompt
comes back. -/
theorem C9_witness :
    enhance_safe (some [("name", "m"), ("key", "k"), ("provider", "openai")])
        (Except.ok " a cat on a mat ") "cat" = "a cat on a mat" ∧
    enhance_safe none (Except.ok "ignored") "cat" = "cat" :=
  ⟨(((C9_enhance_safe_contract
        (some [("name", "m"), ("key", "k"), ("provider", "openai")])
        (Except.ok " a cat on a mat ") "cat" (by decide)).2.2.2
      [("name", "m"), ("key", "k"), ("provider", "openai")] rfl).1
      "a cat on a mat" rfl (by decide)).2,
   (C9_enhance_safe_contract none (Except.ok "ignored") "cat" (by decide)).2.2.1 rfl⟩

/-- C8: after `handle_status` adds CloudFront URLs, a per-model result
carries an `imageUrl` exactly when its status is `completed` — given the
manager invariant that the image key is present iff the outcome is
completed and that no URL was attached beforehand. -/
theorem C8_image_url_iff_completed
    (cloudfront_domain : String) (rs : List ModelResult)
    (hwf : ∀ r ∈ rs, resultWellFormed r) :
    ∀ q ∈ rs.map (enrichResult cloudfront_domain),
      ((q.imageUrl ≠ none) ↔ q.status = "completed") := by
  intro q hq
  rcases List.mem_map.mp hq with ⟨r, hr, rfl⟩
  rcases hwf r hr with ⟨hiff, hurl⟩
  unfold enrichResult
  cases hk : r.imageKey with
  | none =>
      simp [hurl]
      intro hst
      have hkd := hiff.mp hst
      rw [hk] at hkd
      simp at hkd
  | some k =>
      dsimp only
      by_cases hc : r.status = "completed" ∧ k ≠ ""
      · rw [if_pos hc]
        simp [hc.1]
      · rw [if_neg hc]
        simp [hurl]
        intro hst
        have hkd := hiff.mp hst
        rw [hk] at hkd
        simp at hkd
        exact hc ⟨hst, hkd⟩

/-- Witness for C8: a completed result with a stored key receives a URL. -/
theorem C8_witness :
    (((enrichResult "cdn.example.org"
        ⟨"m1", "p1", "completed", some "group-images/t/m1-1.json", none, 1⟩).imageUrl ≠ none) ↔
      (enrichResult "cdn.example.org"
        ⟨"m1", "p1", "completed", some "group-images/t/m1-1.json", none, 1⟩).status =
        "completed") :=
  C8_image_url_iff_completed "cdn.example.org"
    [⟨"m1", "p1", "completed", some "group-images/t/m1-1.json", none, 1⟩]
    (by simp [resultWellFormed]) _ (by simp)

/-- Cancelling a common prefix and a common suffix of a string
concatenation. -/
theorem append_middle_injective (a b x y : String)
    (h : a ++ x ++ b = a ++ y ++ b) : x = y := by
  have hd : a.data ++ x.data ++ b.data = a.data ++ y.data ++ b.data := by
    have := congrArg String.data h
    simpa using this
  have hxy : x.data = y.data := by
    rw [List.append_assoc, List.append_assoc] at hd
    have h2 := List.append_cancel_left hd
    exact List.append_cancel_right h2
  exact congrArg String.mk hxy

/-- C2 (counterexample): two `save_image` writes for the same model and
target at different write instants — here the same wall-clock second but
different microseconds — produce the same S3 key, so the later write
overwrites the earlier raw object. -/
theorem C2_counterexample :
    (⟨2025, 1, 1, 0, 0, 0, 0⟩ : UtcTime) ≠ ⟨2025, 1, 1, 0, 0, 0, 500000⟩ ∧
    save_image_key "DALL-E 3" "2025-01-01-00-00-00" ⟨2025, 1, 1, 0, 0, 0, 0⟩ =
      save_image_key "DALL-E 3" "2025-01-01-00-00-00" ⟨2025, 1, 1, 0, 0, 0, 500000⟩ :=
  ⟨by decide, rfl⟩

/-- C2 (amended): two `save_image` writes for the same model and target
produce distinct S3 keys whenever their formatted second-granularity
timestamps (`%Y%m%d%H%M%S`) differ. -/
theorem C2_distinct_keys_of_distinct_timestamps
    (model_name target : String) (t1 t2 : UtcTime)
    (h : strftimeCompact t1 ≠ strftimeCompact t2) :
    save_image_key model_name target t1 ≠ save_image_key model_name target t2 := by
  intro he
  exact h (append_middle_injective
    ("group-images/" ++ target ++ "/" ++ normalize_model_name model_name ++ "-")
    ".json" (strftimeCompact t1) (strftimeCompact t2) he)

/-- Witness for the amended C2: writes one second apart give distinct keys. -/
theorem C2_amended_witness :
    save_image_key "DALL-E 3" "2025-01-01-00-00-00" ⟨2025, 1, 1, 0, 0, 0, 0⟩ ≠
      save_image_key "DALL-E 3" "2025-01-01-00-00-00" ⟨2025, 1, 1, 0, 0, 1, 0⟩ :=
  C2_distinct_keys_of_distinct_timestamps "DALL-E 3" "2025-01-01-00-00-00"
    ⟨2025, 1, 1, 0, 0, 0, 0⟩ ⟨2025, 1, 1, 0, 0, 1, 0⟩ (by decide)

/-- A character kept by the `[^a-z0-9-]` filter is unchanged by
lower-casing. -/
theorem lowerChar_fixed {c : Char} (h : isAllowedChar c = true) : lowerChar c = c := by
  unfold lowerChar
  rw [if_neg]
  unfold isAllowedChar at h
  simp only [Bool.or_eq_true, Bool.and_eq_true, decide_eq_true_eq] at h
  rintro ⟨h1, h2⟩
  rcases h with (⟨ha, hb⟩ | ⟨ha, hb⟩) | hc <;> omega

/-- A character kept by the `[^a-z0-9-]` filter is not a space, so the
space-to-hyphen map leaves it unchanged. -/
theorem spaceMap_fixed {c : Char} (h : isAllowedChar c = true) :
    (if c = ' ' then '-' else c) = c := by
  rw [if_neg]
  intro he
  subst he
  exact absurd h (by decide)

/-- Collapsing hyphen runs only removes characters. -/
theorem mem_of_mem_collapseHyphens {c : Char} :
    ∀ l : List Char, c ∈ collapseHyphens l → c ∈ l := by
  intro l
  induction l with
  | nil => simp [collapseHyphens]
  | cons a t ih =>
      cases t with
      | nil => simp [collapseHyphens]
      | cons b rest =>
          simp only [collapseHyphens]
          split
          · intro hc
            exact List.mem_cons_of_mem a (ih hc)
          · intro hc
            rcases List.mem_cons.mp hc with rfl | hc2
            · exact List.mem_cons_self _ _
            · exact List.mem_cons_of_mem a (ih hc2)

/-- Collapsing hyphen runs keeps the first character. -/
theorem collapseHyphens_cons (a : Char) (l : List Char) :
    ∃ t, collapseHyphens (a :: l) = a :: t := by
  induction l generalizing a with
  | nil => exact ⟨[], rfl⟩
  | cons b rest ih =>
      by_cases hab : a = '-' ∧ b = '-'
      · rcases ih b with ⟨t, ht⟩
        have hcol : collapseHyphens (a :: b :: rest) = collapseHyphens (b :: rest) := by
          simp [collapseHyphens, hab]
        exact ⟨t, by rw [hcol, ht, hab.1, hab.2]⟩
      · exact ⟨collapseHyphens (b :: rest), by simp [collapseHyphens, hab]⟩

/-- After collapsing, no two consecutive hyphens remain. -/
theorem noDoubleHyphen_collapseHyphens : ∀ l : List Char, noDoubleHyphen (collapseHyphens l) := by
  intro l
  unfold noDoubleHyphen
  induction l with
  | nil => simp [collapseHyphens]
  | cons a t ih =>
      cases t with
      | nil => simp [collapseHyphens]
      | cons b rest =>
          simp only [collapseHyphens]
          split
          · exact ih
          · next hno =>
              rcases collapseHyphens_cons b rest with ⟨t2, ht2⟩
              rw [ht2]
              rw [ht2] at ih
              exact List.chain'_cons.mpr ⟨hno, ih⟩

/-- A list with no double hyphen is a fixed point of the collapse. -/
theorem collapseHyphens_eq_self : ∀ {l : List Char}, noDoubleHyphen l → collapseHyphens l = l := by
  intro l
  unfold noDoubleHyphen
  induction l with
  | nil => intro _; rfl
  | cons a t ih =>
      cases t with
      | nil => intro _; rfl
      | cons b rest =>
          intro h
          rcases List.chain'_cons.mp h with ⟨hab, htail⟩
          simp only [collapseHyphens]
          rw [if_neg hab, ih htail]

/-- The first character surviving `dropWhile` fails the predicate. -/
theorem head?_dropWhile_ne (p : Char → Bool) :
    ∀ l : List Char, ∀ c, (l.dropWhile p).head? = some c → p c = false := by
  intro l
  induction l with
  | nil => intro c hc; cases hc
  | cons a t ih =>
      intro c hc
      by_cases hp : p a = true
      · rw [List.dropWhile_cons, if_pos hp] at hc
        exact ih c hc
      · rw [List.dropWhile_cons, if_neg hp] at hc
        cases hc
        exact Bool.not_eq_true _ |>.mp hp

/-- The function `dropWhile` leaves a list whose head fails the predicate unchanged. -/
theorem dropWhile_eq_self_of_head (p : Char → Bool) (l : List Char)
    (h : ∀ c, l.head? = some c → p c = false) : l.dropWhile p = l := by
  cases l with
  | nil => rfl
  | cons a t =>
      have ha := h a rfl
      rw [List.dropWhile_cons, if_neg (by simp [ha])]

/-- The function `dropWhile` only removes characters. -/
theorem mem_of_mem_dropWhile_char (p : Char → Bool) {c : Char} :
    ∀ l : List Char, c ∈ l.dropWhile p → c ∈ l := by
  intro l
  induction l with
  | nil => intro h; exact h
  | cons a t ih =>
      intro h
      by_cases hp : p a = true
      · rw [List.dropWhile_cons, if_pos hp] at h
        exact List.mem_cons_of_mem a (ih h)
      · rw [List.dropWhile_cons, if_neg hp] at h
        exact h

/-- The function `dropWhile` preserves the no-double-hyphen property. -/
theorem noDoubleHyphen_dropWhile (p : Char → Bool) :
    ∀ l : List Char, noDoubleHyphen l → noDoubleHyphen (l.dropWhile p) := by
  intro l
  unfold noDoubleHyphen
  induction l with
  | nil => intro h; exact h
  | cons a t ih =>
      intro h
      by_cases hp : p a = true
      · rw [List.dropWhile_cons, if_pos hp]
        exact ih h.tail
      · rw [List.dropWhile_cons, if_neg hp]
        exact h

/-- Reversal preserves the no-double-hyphen property. -/
theorem noDoubleHyphen_reverse {l : List Char} (h : noDoubleHyphen l) :
    noDoubleHyphen l.reverse := by
  unfold noDoubleHyphen at h ⊢
  rw [List.chain'_reverse]
  exact h.imp (fun a b hab => fun hcon => hab ⟨hcon.2, hcon.1⟩)

/-- If `dropWhile` returns a non-empty list, its last element is the last
element of the input. -/
theorem getLast?_dropWhile (p : Char → Bool) :
    ∀ l : List Char, l.dropWhile p ≠ [] → (l.dropWhile p).getLast? = l.getLast? := by
  intro l
  induction l with
  | nil => intro h; exact absurd rfl h
  | cons a t ih =>
      intro h
      by_cases hp : p a = true
      · rw [List.dropWhile_cons, if_pos hp] at h ⊢
        cases t with
        | nil => exact absurd rfl h
        | cons b rest =>
            rw [ih h, List.getLast?_cons_cons]
      · rw [List.dropWhile_cons, if_neg hp]

/-- Stripping boundary hyphens only removes characters. -/
theorem mem_of_mem_stripHyphens {c : Char} {l : List Char}
    (h : c ∈ stripHyphens l) : c ∈ l := by
  unfold stripHyphens at h
  rw [List.mem_reverse] at h
  have h2 := mem_of_mem_dropWhile_char _ _ h
  rw [List.mem_reverse] at h2
  exact mem_of_mem_dropWhile_char _ _ h2

/-- Stripping preserves the no-double-hyphen property. -/
theorem noDoubleHyphen_stripHyphens {l : List Char} (h : noDoubleHyphen l) :
    noDoubleHyphen (stripHyphens l) := by
  unfold stripHyphens
  exact noDoubleHyphen_reverse
    (noDoubleHyphen_dropWhile _ _ (noDoubleHyphen_reverse (noDoubleHyphen_dropWhile _ _ h)))

/-- After stripping, the first character is not a hyphen. -/
theorem stripHyphens_head (l : List Char) : (stripHyphens l).head? ≠ some '-' := by
  unfold stripHyphens
  intro hcon
  rw [List.head?_reverse] at hcon
  have hne : (l.dropWhile (fun c => c = '-')).reverse.dropWhile (fun c => c = '-') ≠ [] := by
    intro hnil
    rw [hnil] at hcon
    cases hcon
  rw [getLast?_dropWhile _ _ hne, List.getLast?_reverse] at hcon
  have := head?_dropWhile_ne (fun c => c = '-') l '-' hcon
  simp at this

/-- After stripping, the last character is not a hyphen. -/
theorem stripHyphens_getLast (l : List Char) : (stripHyphens l).getLast? ≠ some '-' := by
  unfold stripHyphens
  intro hcon
  rw [List.getLast?_reverse] at hcon
  have := head?_dropWhile_ne (fun c => c = '-')
    ((l.dropWhile (fun c => c = '-')).reverse) '-' hcon
  simp at this

/-- Stripping leaves a list whose boundary characters are not hyphens
unchanged. -/
theorem stripHyphens_eq_self {l : List Char}
    (hhead : l.head? ≠ some '-') (hlast : l.getLast? ≠ some '-') :
    stripHyphens l = l := by
  unfold stripHyphens
  have h1 : l.dropWhile (fun c => c = '-') = l := by
    apply dropWhile_eq_self_of_head
    intro c hc
    have hne : c ≠ '-' := fun he => hhead (he ▸ hc)
    exact decide_eq_false hne
  have h2 : l.reverse.dropWhile (fun c => c = '-') = l.reverse := by
    apply dropWhile_eq_self_of_head
    intro c hc
    rw [List.head?_reverse] at hc
    have hne : c ≠ '-' := fun he => hlast (he ▸ hc)
    exact decide_eq_false hne
  rw [h1, h2, List.reverse_reverse]

/-- Every character of a normalized model name is a lower-case letter, a
digit, or a hyphen. -/
theorem normalizeChars_allowed (s : List Char) :
    ∀ c ∈ normalizeChars s, isAllowedChar c = true := by
  intro c hc
  unfold normalizeChars at hc
  have h1 := mem_of_mem_stripHyphens hc
  have h2 := mem_of_mem_collapseHyphens _ h1
  exact (List.mem_filter.mp h2).2

/-- A normalized model name has no double hyphen and no boundary hyphen. -/
theorem normalizeChars_shape (s : List Char) :
    noDoubleHyphen (normalizeChars s) ∧
    (normalizeChars s).head? ≠ some '-' ∧
    (normalizeChars s).getLast? ≠ some '-' := by
  unfold normalizeChars
  exact ⟨noDoubleHyphen_stripHyphens (noDoubleHyphen_collapseHyphens _),
    stripHyphens_head _, stripHyphens_getLast _⟩

/-- A list already in normal form is a fixed point of the whole chain. -/
theorem normalizeChars_eq_self {l : List Char}
    (hall : ∀ c ∈ l, isAllowedChar c = true)
    (hnd : noDoubleHyphen l)
    (hhead : l.head? ≠ some '-') (hlast : l.getLast? ≠ some '-') :
    normalizeChars l = l := by
  have h1 : l.map lowerChar = l.map id :=
    List.map_congr_left (fun c hc => lowerChar_fixed (hall c hc))
  have h2 : l.map (fun c => if c = ' ' then '-' else c) = l.map id :=
    List.map_congr_left (fun c hc => spaceMap_fixed (hall c hc))
  rw [List.map_id] at h1 h2
  have h3 : l.filter (fun c => isAllowedChar c) = l := List.filter_eq_self.mpr hall
  unfold normalizeChars
  rw [h1, h2, h3, collapseHyphens_eq_self hnd, stripHyphens_eq_self hhead hlast]

/-- C10: `_normalize_model_name` is idempotent, and for every input its
output consists only of lower-case ASCII letters, digits and hyphens,
with no two consecutive hyphens and no leading or trailing hyphen. -/
theorem C10_normalize_model_name_idempotent_and_shape (s : String) :
    normalize_model_name (normalize_model_name s) = normalize_model_name s ∧
    (∀ c ∈ (normalize_model_name s).data, isAllowedChar c = true) ∧
    noDoubleHyphen (normalize_model_name s).data ∧
    (normalize_model_name s).data.head? ≠ some '-' ∧
    (normalize_model_name s).data.getLast? ≠ some '-' := by
  have hdata : (normalize_model_name s).data = normalizeChars s.data := rfl
  have hall := normalizeChars_allowed s.data
  have hshape := normalizeChars_shape s.data
  refine ⟨?_, ?_, ?_, ?_, ?_⟩
  · show String.mk (normalizeChars (normalize_model_name s).data) = normalize_model_name s
    rw [hdata, normalizeChars_eq_self hall hshape.1 hshape.2.1 hshape.2.2]
    rfl
  · rw [hdata]
    exact hall
  · rw [hdata]
    exact hshape.1
  · rw [hdata]
    exact hshape.2.1
  · rw [hdata]
    exact hshape.2.2

end PixelPrompt
